import Mathlib

/-! Shallow embedding of `src/build.c` (the `buildcc` self-hosting build tool).

Conventions of the embedding:
* File-modification times (`time_t` values returned by `get_file_mtime`) are
  modelled as `Nat`, with `0` the sentinel for "path does not exist"
  (`get_file_mtime` returns 0 when `stat` fails).
* The filesystem is a total map from paths to mtimes, `FS := String → Nat`.
* Child-process behaviour is an oracle parameter: `cmd_run` is given the
  termination status of the child it would spawn, and the dependency walk is
  given an oracle describing the filesystem effect of running a command
  (`none` encodes the command reporting failure, i.e. `cmd_run` returning 0).
  `fork`-failure and `execvp`-failure inside the child, which `panic` the
  whole tool, are outside these oracles; no property below depends on them.
* Fatal `panic(...)` terminations of the tool are modelled as `Except.error`
  values (for the build walk) or explicit `panicked` results (bootstrap).
-/

/-- Model of `struct Cmd`: the dynamically sized token sequence.  The `count` field of
the C struct is the length of `args`; the `capacity`/allocation bookkeeping is
modelled separately (see `CmdState`) because only `cmd_internal_append`
touches it. -/
structure Cmd where
  args : List String
deriving DecidableEq, Repr

/-- Quoting of a single token in `cmd_print` (build.c:121-125): a token is
wrapped in single quotes exactly when `strchr(token, ' ')` finds a space
character among the token's characters. -/
def renderToken (s : String) : String :=
  if s.data.contains ' ' then "'" ++ s ++ "'" else s

/-- The body of `cmd_print`'s loop (build.c:120-130): each token is rendered,
with a single space printed between consecutive tokens. -/
def cmd_print_loop : List String → String
  | [] => ""
  | [t] => renderToken t
  | t :: u :: rest => renderToken t ++ " " ++ cmd_print_loop (u :: rest)

/-- Function `cmd_print` (build.c:116-132) as the string it writes to stdout: nothing
at all when `count == 0` (early return before any output), otherwise the
rendered tokens followed by exactly one newline. -/
def cmd_print (c : Cmd) : String :=
  if c.args.length = 0 then "" else cmd_print_loop c.args ++ "\n"

/-- Termination status of a spawned child process, as classified by
`waitpid`/`WIFEXITED`/`WIFSIGNALED` in `cmd_run`. -/
inductive ChildRes where
  | exited (code : Nat)
  | signaled (sig : Nat)
deriving DecidableEq, Repr

/-- Result of `cmd_run` for the tool itself: either the function returns an
`int` (1 on success, 0 on recoverable failure), having spawned a child or
not, or the whole tool dies by `panic` (child killed by a signal,
build.c:167-169). -/
inductive RunRes where
  | ret (value : Nat) (spawned : Bool)
  | fatal
deriving DecidableEq, Repr

/-- Function `cmd_run` (build.c:134-172), paired with the text it writes to stdout.
`child` is the oracle for what the spawned child would do.  With
`count == 0` it returns 1 immediately (build.c:135-137): no `[CMD] ` prefix
is printed and no process is spawned.  Otherwise it prints the `[CMD] `
prefix plus `cmd_print`'s rendering, spawns, waits, and returns 1 on exit
code 0, 0 on a nonzero exit code, and panics on a signal. -/
def cmd_run (child : Cmd → ChildRes) (c : Cmd) : RunRes × String :=
  if c.args.length = 0 then (.ret 1 false, "")
  else
    let out := "[CMD] " ++ cmd_print c
    match child c with
    | .exited code => if code = 0 then (.ret 1 true, out) else (.ret 0 true, out)
    | .signaled _ => (.fatal, out)

/-! Allocation bookkeeping of `cmd_internal_append` (build.c:80-112).

Only the size bookkeeping matters for the growth claims: `count` and
`capacity` are the struct fields, `allocSize` is the number of slots the
most recent `realloc` actually obtained (`newsize` in the code; 0 while
`args` is still `NULL`). -/

structure CmdState where
  count : Nat
  capacity : Nat
  allocSize : Nat
deriving DecidableEq, Repr

/-- A `Cmd cmd = {0}` zero-initialised struct: no storage yet. -/
def cmdEmpty : CmdState := ⟨0, 0, 0⟩

/-- One iteration of the `while (cur_arg != NULL)` loop of
`cmd_internal_append` for one token: when `count == capacity` the array is
`realloc`ed to `newsize = (capacity == 0) ? 10 : capacity * 2` slots and the
code then executes `cmd->capacity++`; in all cases the token is stored at
index `count` and `count` is incremented.  Returns the new state, whether a
reallocation happened, and the pair (index written, allocation size in force
at the moment of the write). -/
def appendOne (s : CmdState) : CmdState × Bool × (Nat × Nat) :=
  if s.count = s.capacity then
    let newsize := if s.capacity = 0 then 10 else s.capacity * 2
    (⟨s.count + 1, s.capacity + 1, newsize⟩, true, (s.count, newsize))
  else
    (⟨s.count + 1, s.capacity, s.allocSize⟩, false, (s.count, s.allocSize))

/-- Appending `n` tokens in sequence (the loop run to completion on an
`n`-token argument pack); returns the final state, the total number of
reallocations performed, and the list of (index, allocation size) write
records. -/
def appendN : Nat → CmdState → CmdState × Nat × List (Nat × Nat)
  | 0, s => (s, 0, [])
  | n + 1, s =>
    let (s1, re, w) := appendOne s
    let (s2, k, ws) := appendN n s1
    (s2, (if re then 1 else 0) + k, w :: ws)

/-! Self-rebuild bootstrap, `go_build_urself` (build.c:173-210).

The function's externally visible behaviour is a sequence of filesystem /
process events plus how the call ends.  `srcM` and `binM` are the mtimes of
`__FILE__` and `argv[0]` as sampled at build.c:177; `renameOk` is whether
`rename(binary_path, old_binary_path)` succeeds; `child` is the termination
status of the compiler child spawned by `cmd_run`; `execOk` is whether the
final `execvp` replaces the process image. -/

inductive BootEvent where
  | renamed (src dst : String)
  | ranCmd (args : List String)
  | unlinked (p : String)
deriving DecidableEq, Repr

inductive BootResult where
  | proceed
  | execReplaced (p : String)
  | panicked (msg : String)
deriving DecidableEq, Repr

/-- The compiler invocation built at build.c:198-199:
`cmd_append(&cmd, CC, source_path, "-o", binary_path)` with `CC = "gcc"`. -/
def rebuildCmd (sourcePath binaryPath : String) : Cmd :=
  ⟨["gcc", sourcePath, "-o", binaryPath]⟩

/-- Function `go_build_urself` (build.c:173-210).  If the source is not newer than the
binary it returns at once (build.c:177-178).  Otherwise it renames the
binary to `<binary>.old` (fatal if that fails), runs the recompilation
command, renames the backup over the original path when and only when the
command failed (returned 0, build.c:201-203), unconditionally unlinks the
backup, and finally `execvp`s the binary path (panicking only if `execvp`
itself returns). -/
def go_build_urself (srcM binM : Nat) (renameOk : Bool) (child : Cmd → ChildRes)
    (execOk : Bool) (sourcePath binaryPath : String) : BootResult × List BootEvent :=
  if srcM ≤ binM then (.proceed, [])
  else
    let oldPath := binaryPath ++ ".old"
    if !renameOk then (.panicked "Couldnt rename old binary", [])
    else
      let cmd := rebuildCmd sourcePath binaryPath
      let ev1 := [BootEvent.renamed binaryPath oldPath, BootEvent.ranCmd cmd.args]
      match (cmd_run child cmd).1 with
      | .fatal => (.panicked "Build terminated with signal", ev1)
      | .ret v _ =>
        let ev2 := if v = 0 then ev1 ++ [BootEvent.renamed oldPath binaryPath] else ev1
        let ev3 := ev2 ++ [BootEvent.unlinked oldPath]
        if execOk then (.execReplaced binaryPath, ev3)
        else (.panicked "How did we get here?", ev3)

/-! The target graph and `build_target` (build.c:219-259).

`Target` (build.c:34-39): an output path, a `NULL`-terminated dependency
array, and an optional command.  The C graph is a hand-authored DAG reached
through pointers; `build_target` does no memoization and no identity
comparison, so the traversal it performs is exactly the traversal of the
unfolding tree, which is what the inductive type captures (a shared node
appears once per path reaching it, just as the C walk visits it once per
path). -/

inductive Target where
  | mk (output : String) (deps : List Target) (cmd : Option Cmd)
deriving Repr

/-- The `output` field. -/
def Target.output : Target → String
  | .mk o _ _ => o

/-- The `deps` field. -/
def Target.deps : Target → List Target
  | .mk _ d _ => d

/-- The `cmd` field. -/
def Target.cmd : Target → Option Cmd
  | .mk _ _ c => c

/-- Filesystem abstraction: mtime of each path, 0 = path absent
(`get_file_mtime`, build.c:212-217). -/
def FS : Type := String → Nat

/-- The path the `__FILE__` macro expands to inside `build_target`
(build.c:229): the tool's own build-definition source. -/
def buildSourcePath : String := "build.c"

/-- The two `panic`s reachable from `build_target` (build.c:248 and 254);
each names the output of the target that failed. -/
inductive BuildErr where
  | noCmd (output : String)
  | cmdFailed (output : String)
deriving DecidableEq, Repr

/-- One completed `build_target` frame, recorded in traversal order:
the target's output, the final value of its `needs_rebuild` flag, and
whether its command was run. -/
structure Visit where
  output : String
  needsRebuild : Bool
  ranCmd : Bool
deriving DecidableEq, Repr

/-- Semantics of `cmd_run` as seen by the build walk: the filesystem effect of executing
a command.  `exec` is the oracle for a spawned child (`none` = the command
failed, i.e. `cmd_run` returned 0; `some fs'` = success with resulting
filesystem).  An empty command spawns nothing, changes nothing, and reports
success (`cmd_run` returns 1 at build.c:135-137). -/
def cmdRunFs (exec : Cmd → FS → Option FS) (c : Cmd) (fs : FS) : Option FS :=
  if c.args.length = 0 then some fs else exec c fs

/-- The rebuild decision block of `build_target` (build.c:243-258), reached
after the dependency loop with entry mtime `mtime`, current filesystem
`fs1`, final `needs_rebuild` flag `needs` and accumulated trace `tr`: panic
(`noCmd`) when a rebuild is needed with no command and no existing output,
silently accept when there is no command but the output exists, run the
command when there is one (panicking as `cmdFailed` when it reports
failure), and skip when no rebuild is needed. -/
def build_decision (exec : Cmd → FS → Option FS) (out : String)
    (cmd : Option Cmd) (mtime : Nat) (fs1 : FS) (needs : Bool)
    (tr : List Visit) : Except BuildErr (FS × List Visit) :=
  if needs then
    match cmd with
    | none =>
      if mtime = 0 then .error (.noCmd out)
      else .ok (fs1, tr ++ [⟨out, true, false⟩])
    | some c =>
      match cmdRunFs exec c fs1 with
      | none => .error (.cmdFailed out)
      | some fs2 => .ok (fs2, tr ++ [⟨out, true, true⟩])
  else .ok (fs1, tr ++ [⟨out, false, false⟩])

mutual

/-- Function `build_target` (build.c:219-259).  Reads `mtime` of the output, seeds
`needs_rebuild` from `mtime == 0` and from the `t->cmd &&
get_file_mtime(__FILE__) > mtime` check, folds over the dependencies
(building each one, then comparing its current output mtime against
`mtime`), and finally either panics (`noCmd` when rebuild is needed with no
command and no existing output, `cmdFailed` when the command reports
failure), runs the command, or skips.  Returns the resulting filesystem and
the post-order list of visits. -/
def build_target (exec : Cmd → FS → Option FS) : Target → FS →
    Except BuildErr (FS × List Visit)
  | .mk out deps cmd, fs =>
    let mtime := fs out
    let needs0 : Bool := (mtime == 0) || (cmd.isSome && decide (fs buildSourcePath > mtime))
    match build_deps exec mtime deps fs needs0 with
    | .error e => .error e
    | .ok (fs1, needs, tr) => build_decision exec out cmd mtime fs1 needs tr
termination_by t _ => sizeOf t

/-- The dependency loop of `build_target` (build.c:232-241): each dependency
is built first, then its *current* output mtime is compared against the
caller's entry-time `mtime`; a newer dependency sets `needs_rebuild`. -/
def build_deps (exec : Cmd → FS → Option FS) (mtime : Nat) :
    List Target → FS → Bool → Except BuildErr (FS × Bool × List Visit)
  | [], fs, b => .ok (fs, b, [])
  | d :: rest, fs, b =>
    match build_target exec d fs with
    | .error e => .error e
    | .ok (fs1, tr1) =>
      match build_deps exec mtime rest fs1 (b || decide (fs1 d.output > mtime)) with
      | .error e => .error e
      | .ok (fs2, b2, tr2) => .ok (fs2, b2, tr1 ++ tr2)
termination_by l _ _ => sizeOf l

end

/-! Theorems.  Claim identifiers refer to the frozen claim list for this
repository. -/

/-- A child-behaviour oracle under which every spawned child exits with
code 2 (a nonzero exit). -/
def childExit2 : Cmd → ChildRes := fun _ => ChildRes.exited 2

/-- C1 counterexample: the claim says `run()` on an empty token sequence
returns the same failure value as a nonzero child exit.  In the code a
nonzero child exit makes `cmd_run` return 0 (build.c:160-162), but an empty
token sequence makes it return 1 (build.c:135-137) — the success value — so
the two return values differ at this concrete input. -/
theorem c1_empty_run_counterexample :
    (cmd_run childExit2 ⟨[]⟩).1 = RunRes.ret 1 false ∧
    (cmd_run childExit2 ⟨["true"]⟩).1 = RunRes.ret 0 true ∧
    RunRes.ret 1 false ≠ RunRes.ret 0 true := by
  refine ⟨rfl, ?_, by decide⟩
  simp [cmd_run, childExit2, cmd_print]

/-- C1 (amended): for every Command whose token sequence is empty, `run()`
returns the success value 1 (not the failure value 0 that a nonzero child
exit produces), spawns no child process, and prints nothing, for any
behaviour of the child oracle. -/
theorem c1_empty_run_returns_success_spawns_nothing (child : Cmd → ChildRes) :
    cmd_run child ⟨[]⟩ = (RunRes.ret 1 false, "") := rfl

/-- C10: `print()` on an empty Command writes nothing at all to standard
output — not even a newline — and `run()` on an empty Command returns before
printing the `[CMD] ` prefix, so its stdout is also empty, for any child
oracle. -/
theorem c10_empty_cmd_zero_output (child : Cmd → ChildRes) :
    cmd_print ⟨[]⟩ = "" ∧ (cmd_run child ⟨[]⟩).2 = "" :=
  ⟨rfl, rfl⟩

/-- C4: when the build-definition source's mtime is less than or equal to
the running binary's mtime, the bootstrap returns immediately: no rename, no
command execution, no unlink, no process replacement — the event list is
empty and control proceeds to the application's build walk. -/
theorem c4_bootstrap_noop (srcM binM : Nat) (renameOk : Bool)
    (child : Cmd → ChildRes) (execOk : Bool) (sp bp : String)
    (h : srcM ≤ binM) :
    go_build_urself srcM binM renameOk child execOk sp bp =
      (BootResult.proceed, []) := by
  simp [go_build_urself, h]

/-- C4 witness: concrete no-op instance (source mtime 3 ≤ binary mtime 5). -/
theorem c4_bootstrap_noop_witness :
    (3 ≤ 5) ∧
    go_build_urself 3 5 true childExit2 true "build.c" "./build" =
      (BootResult.proceed, []) :=
  ⟨by decide, c4_bootstrap_noop 3 5 true childExit2 true "build.c" "./build" (by decide)⟩

/-- C5: when the bootstrap's recompilation command fails (the compiler child
exits nonzero, so `cmd_run` returns 0), the backup `<binary>.old` is renamed
back to the original binary path, and this restore happens before the backup
path is unlinked and before the process image is replaced: the event
sequence is exactly rename-to-backup, run-command, rename-back, unlink,
and only then the `execvp` of the (restored) binary ends the call. -/
theorem c5_bootstrap_restores_backup_on_failed_rebuild
    (srcM binM : Nat) (child : Cmd → ChildRes) (execOk : Bool)
    (sp bp : String) (code : Nat)
    (hstale : binM < srcM)
    (hchild : child (rebuildCmd sp bp) = ChildRes.exited code)
    (hfail : code ≠ 0) :
    go_build_urself srcM binM true child execOk sp bp =
      ((if execOk then BootResult.execReplaced bp
        else BootResult.panicked "How did we get here?"),
       [BootEvent.renamed bp (bp ++ ".old"),
        BootEvent.ranCmd ["gcc", sp, "-o", bp],
        BootEvent.renamed (bp ++ ".old") bp,
        BootEvent.unlinked (bp ++ ".old")]) := by
  have hns : ¬ srcM ≤ binM := by omega
  simp only [rebuildCmd] at hchild
  simp [go_build_urself, hns, cmd_run, rebuildCmd, hchild, hfail]
  cases execOk <;> simp

/-- C5 witness: concrete failed-rebuild instance (source mtime 9 > binary
mtime 4, compiler child exits 2): the restore rename precedes the unlink and
the re-exec. -/
theorem c5_bootstrap_restore_witness :
    (4 < 9) ∧ (childExit2 (rebuildCmd "build.c" "./build") = ChildRes.exited 2) ∧
    ((2 : Nat) ≠ 0) ∧
    go_build_urself 9 4 true childExit2 true "build.c" "./build" =
      ((if true then BootResult.execReplaced "./build"
        else BootResult.panicked "How did we get here?"),
       [BootEvent.renamed "./build" ("./build" ++ ".old"),
        BootEvent.ranCmd ["gcc", "build.c", "-o", "./build"],
        BootEvent.renamed ("./build" ++ ".old") "./build",
        BootEvent.unlinked ("./build" ++ ".old")]) :=
  ⟨by decide, rfl, by decide,
   c5_bootstrap_restores_backup_on_failed_rebuild 9 4 childExit2 true
     "build.c" "./build" 2 (by decide) rfl (by decide)⟩

lemma appendN_from_full (n : Nat) : ∀ (k a : Nat),
    (appendN n ⟨k, k, a⟩).1.count = k + n ∧
    (appendN n ⟨k, k, a⟩).1.capacity = k + n ∧
    (appendN n ⟨k, k, a⟩).2.1 = n := by
  induction n with
  | zero => intro k a; simp [appendN]
  | succ n ih =>
    intro k a
    simp only [appendN, appendOne, if_pos rfl]
    have h := ih (k + 1) (if k = 0 then 10 else k * 2)
    refine ⟨?_, ?_, ?_⟩ <;> simp [h.1, h.2.1, h.2.2] <;> omega

/-- C8: the growth of `cmd_internal_append` is not amortized.  Because the
code executes `cmd->capacity++` instead of recording `newsize`
(build.c:103), `count == capacity` holds again after every single append, so
appending `n` tokens to an initially empty `Cmd` performs exactly `n`
reallocations (one per token, not `O(log n)`) and leaves `capacity = n`.
Concretely, after two appends the write records are `(0, 10)` and `(1, 2)`:
the second `realloc` even shrinks the storage from 10 slots to
`newsize = capacity * 2 = 2`. -/
theorem c8_append_reallocates_on_every_append (n : Nat) :
    ((appendN n cmdEmpty).2.1 = n ∧ (appendN n cmdEmpty).1.capacity = n) ∧
    appendN 2 cmdEmpty = (⟨2, 2, 2⟩, 2, [(0, 10), (1, 2)]) := by
  have h := appendN_from_full n 0 0
  exact ⟨⟨h.2.2, by simpa using h.2.1⟩, by decide⟩

/-- Concatenation of a separator-prefixed tail, the accumulator-free view of
`String.intercalate.go`. -/
def joinSep (sep : String) : List String → String
  | [] => ""
  | t :: rest => sep ++ t ++ joinSep sep rest

lemma intercalate_go_eq (sep : String) :
    ∀ (l : List String) (acc : String),
      String.intercalate.go acc sep l = acc ++ joinSep sep l := by
  intro l
  induction l with
  | nil => intro acc; simp [String.intercalate.go, joinSep]
  | cons t rest ih =>
    intro acc
    simp [String.intercalate.go, joinSep, ih, String.append_assoc]

lemma cmd_print_loop_eq_intercalate (l : List String) :
    cmd_print_loop l = String.intercalate " " (l.map renderToken) := by
  induction l with
  | nil => rfl
  | cons t rest ih =>
    cases rest with
    | nil => simp [cmd_print_loop, String.intercalate, String.intercalate.go]
    | cons u rest' =>
      simp only [cmd_print_loop, ih, List.map]
      simp [String.intercalate, intercalate_go_eq, joinSep, String.append_assoc]

/-- Rendering format as the specification states it: the tokens in insertion
order, joined by single spaces, each token that contains a space wrapped in
single quotes, followed by one trailing newline and nothing else. -/
def cmd_print_spec (c : Cmd) : String :=
  String.intercalate " "
    (c.args.map fun t => if ' ' ∈ t.data then "'" ++ t ++ "'" else t) ++ "\n"

/-- C7: for every non-empty Command, `print()` produces exactly the
spec-stated rendering (space-joined tokens in insertion order, space-bearing
tokens single-quoted, one trailing newline and nothing after it), and on the
spec's example token sequence it renders `gcc -o 'out file' main.c` plus a
newline. -/
theorem c7_print_renders_spec_format (c : Cmd) (h : c.args ≠ []) :
    cmd_print c = cmd_print_spec c ∧
    cmd_print ⟨["gcc", "-o", "out file", "main.c"]⟩ =
      "gcc -o 'out file' main.c\n" := by
  constructor
  · have hlen : ¬ c.args.length = 0 := by
      simpa [List.length_eq_zero] using h
    simp only [cmd_print, cmd_print_spec, if_neg hlen,
      cmd_print_loop_eq_intercalate]
    have hmap : List.map renderToken c.args =
        List.map (fun t => if ' ' ∈ t.data then "'" ++ t ++ "'" else t) c.args := by
      refine List.map_congr_left fun t _ => ?_
      simp [renderToken, List.elem_iff]
    rw [hmap]
  · decide

/-- C7 witness: the theorem applied to the spec's example command. -/
theorem c7_print_renders_witness :
    ((⟨["gcc", "-o", "out file", "main.c"]⟩ : Cmd).args ≠ []) ∧
    (cmd_print ⟨["gcc", "-o", "out file", "main.c"]⟩ =
        cmd_print_spec ⟨["gcc", "-o", "out file", "main.c"]⟩ ∧
      cmd_print ⟨["gcc", "-o", "out file", "main.c"]⟩ =
        "gcc -o 'out file' main.c\n") :=
  ⟨by decide, c7_print_renders_spec_format ⟨["gcc", "-o", "out file", "main.c"]⟩ (by decide)⟩

lemma build_target_unfold (exec : Cmd → FS → Option FS) (out : String)
    (deps : List Target) (cmd : Option Cmd) (fs fs1 : FS) (b : Bool)
    (tr : List Visit)
    (hdeps : build_deps exec (fs out) deps fs
        ((fs out == 0) || (cmd.isSome && decide (fs buildSourcePath > fs out)))
      = .ok (fs1, b, tr)) :
    build_target exec (.mk out deps cmd) fs =
      build_decision exec out cmd (fs out) fs1 b tr := by
  simp only [build_target]
  rw [hdeps]

lemma build_deps_true (exec : Cmd → FS → Option FS) (m : Nat) :
    ∀ (l : List Target) (fs fs1 : FS) (b1 : Bool) (tr : List Visit),
      build_deps exec m l fs true = .ok (fs1, b1, tr) → b1 = true := by
  intro l
  induction l with
  | nil =>
    intro fs fs1 b1 tr h
    simp [build_deps] at h
    exact h.2.1
  | cons d rest ih =>
    intro fs fs1 b1 tr h
    simp only [build_deps] at h
    cases hbt : build_target exec d fs with
    | error e => rw [hbt] at h; simp at h
    | ok p =>
      obtain ⟨fsd, trd⟩ := p
      rw [hbt] at h
      simp only [Bool.true_or] at h
      cases hbd : build_deps exec m rest fsd true with
      | error e => rw [hbd] at h; simp at h
      | ok q =>
        obtain ⟨fs2, b2, tr2⟩ := q
        rw [hbd] at h
        simp only [Except.ok.injEq, Prod.mk.injEq] at h
        exact h.2.1 ▸ ih fsd fs2 b2 tr2 hbd

lemma build_deps_append (exec : Cmd → FS → Option FS) (m : Nat) :
    ∀ (l1 l2 : List Target) (fs : FS) (b : Bool),
      build_deps exec m (l1 ++ l2) fs b =
        match build_deps exec m l1 fs b with
        | .error e => .error e
        | .ok (fs1, b1, tr1) =>
          match build_deps exec m l2 fs1 b1 with
          | .error e => .error e
          | .ok (fs2, b2, tr2) => .ok (fs2, b2, tr1 ++ tr2) := by
  intro l1
  induction l1 with
  | nil =>
    intro l2 fs b
    simp only [List.nil_append, build_deps]
    cases h : build_deps exec m l2 fs b with
    | error e => rfl
    | ok q => obtain ⟨fs2, b2, tr2⟩ := q; simp
  | cons d rest ih =>
    intro l2 fs b
    simp only [List.cons_append, build_deps]
    cases hbt : build_target exec d fs with
    | error e => rfl
    | ok p =>
      obtain ⟨fsd, trd⟩ := p
      simp only [ih]
      cases hr : build_deps exec m rest fsd (b || decide (fsd d.output > m)) with
      | error e => simp
      | ok q =>
        obtain ⟨fs1, b1, tr1⟩ := q
        cases hl2 : build_deps exec m l2 fs1 b1 with
        | error e => simp [hl2]
        | ok r => obtain ⟨fs2, b2, tr2⟩ := r; simp [hl2]

/-- C2: for a target whose output path does not exist (entry mtime 0), once
the dependency loop completes without a fatal error, `build_target` always
takes the rebuild branch: with no command it panics with the
`No command provided to build ...` message naming the missing output, and
with a command it executes that command (succeeding or panicking with the
command's outcome). -/
theorem c2_missing_output_forces_rebuild_or_fatal
    (exec : Cmd → FS → Option FS) (t : Target) (fs : FS)
    (h0 : fs t.output = 0)
    (fs1 : FS) (b : Bool) (tr : List Visit)
    (hdeps : build_deps exec (fs t.output) t.deps fs true = .ok (fs1, b, tr)) :
    (t.cmd = none → build_target exec t fs = .error (.noCmd t.output)) ∧
    (∀ c, t.cmd = some c →
      build_target exec t fs =
        match cmdRunFs exec c fs1 with
        | none => .error (.cmdFailed t.output)
        | some fs2 => .ok (fs2, tr ++ [⟨t.output, true, true⟩])) := by
  obtain ⟨out, deps, cmd⟩ := t
  simp only [Target.output, Target.deps, Target.cmd] at h0 hdeps ⊢
  have hb : b = true := build_deps_true exec (fs out) deps fs fs1 b tr hdeps
  subst hb
  have hn : ((fs out == 0) || (cmd.isSome && decide (fs buildSourcePath > fs out)))
      = true := by simp [h0]
  have hdeps' : build_deps exec (fs out) deps fs
      ((fs out == 0) || (cmd.isSome && decide (fs buildSourcePath > fs out)))
      = .ok (fs1, true, tr) := by rw [hn]; exact hdeps
  have hu := build_target_unfold exec out deps cmd fs fs1 true tr hdeps'
  constructor
  · intro hc
    subst hc
    rw [hu]
    simp [build_decision, h0]
  · intro c hc
    subst hc
    rw [hu]
    simp [build_decision]

/-- C2 witness: a dependency-free, command-free target whose output is
absent everywhere panics naming that output. -/
theorem c2_missing_output_witness :
    ((fun _ => 0 : FS) (Target.mk "lib.a" [] none).output = 0) ∧
    (build_deps (fun _ f => some f) ((fun _ => 0 : FS) (Target.mk "lib.a" [] none).output)
        (Target.mk "lib.a" [] none).deps (fun _ => 0) true
      = .ok ((fun _ => 0 : FS), true, [])) ∧
    (((Target.mk "lib.a" [] none).cmd = none →
      build_target (fun _ f => some f) (Target.mk "lib.a" [] none) (fun _ => 0)
        = .error (.noCmd (Target.mk "lib.a" [] none).output)) ∧
     (∀ c, (Target.mk "lib.a" [] none).cmd = some c →
      build_target (fun _ f => some f) (Target.mk "lib.a" [] none) (fun _ => 0)
        = match cmdRunFs (fun _ f => some f) c (fun _ => 0) with
          | none => .error (.cmdFailed (Target.mk "lib.a" [] none).output)
          | some fs2 => .ok (fs2, [] ++ [⟨(Target.mk "lib.a" [] none).output, true, true⟩]))) :=
  ⟨rfl, by simp [build_deps, Target.deps],
   c2_missing_output_forces_rebuild_or_fatal (fun _ f => some f)
     (Target.mk "lib.a" [] none) (fun _ => 0) rfl (fun _ => 0) true []
     (by simp [build_deps, Target.deps])⟩

/-- C6: for a target that owns a command, when the build tool's own
definition source (`build.c`) has an mtime strictly greater than the
target's output mtime, `needs_rebuild` is set at build.c:229-231, so once
the dependency loop completes without fatal error the target's command is
executed — regardless of whether the output exists or any dependency is
newer. -/
theorem c6_tool_source_newer_forces_rebuild
    (exec : Cmd → FS → Option FS) (t : Target) (fs : FS) (c : Cmd)
    (fs1 : FS) (b : Bool) (tr : List Visit)
    (hc : t.cmd = some c)
    (hnewer : fs buildSourcePath > fs t.output)
    (hdeps : build_deps exec (fs t.output) t.deps fs true = .ok (fs1, b, tr)) :
    build_target exec t fs =
      match cmdRunFs exec c fs1 with
      | none => .error (.cmdFailed t.output)
      | some fs2 => .ok (fs2, tr ++ [⟨t.output, true, true⟩]) := by
  obtain ⟨out, deps, cmd⟩ := t
  simp only [Target.output, Target.deps, Target.cmd] at hc hnewer hdeps ⊢
  subst hc
  have hb : b = true := build_deps_true exec (fs out) deps fs fs1 b tr hdeps
  subst hb
  have hn : ((fs out == 0) || ((some c).isSome && decide (fs buildSourcePath > fs out)))
      = true := by simp [hnewer]
  have hdeps' : build_deps exec (fs out) deps fs
      ((fs out == 0) || ((some c).isSome && decide (fs buildSourcePath > fs out)))
      = .ok (fs1, true, tr) := by rw [hn]; exact hdeps
  rw [build_target_unfold exec out deps (some c) fs fs1 true tr hdeps']
  simp [build_decision]

/-- C6 witness: output `app` exists (mtime 3) with no dependencies, but
`build.c` has mtime 7 > 3, so the command runs and the walk succeeds. -/
theorem c6_tool_source_newer_witness :
    ((Target.mk "app" [] (some ⟨["cc", "app.c"]⟩)).cmd = some ⟨["cc", "app.c"]⟩) ∧
    ((fun p => if p = buildSourcePath then 7 else 3 : FS) buildSourcePath >
      (fun p => if p = buildSourcePath then 7 else 3 : FS)
        (Target.mk "app" [] (some ⟨["cc", "app.c"]⟩)).output) ∧
    (build_target (fun _ f => some f) (Target.mk "app" [] (some ⟨["cc", "app.c"]⟩))
        (fun p => if p = buildSourcePath then 7 else 3)
      = match cmdRunFs (fun _ f => some f) ⟨["cc", "app.c"]⟩
            (fun p => if p = buildSourcePath then 7 else 3) with
        | none => .error (.cmdFailed (Target.mk "app" [] (some ⟨["cc", "app.c"]⟩)).output)
        | some fs2 =>
          .ok (fs2, [] ++ [⟨(Target.mk "app" [] (some ⟨["cc", "app.c"]⟩)).output, true, true⟩])) :=
  ⟨rfl, by simp [Target.output, buildSourcePath],
   c6_tool_source_newer_forces_rebuild (fun _ f => some f)
     (Target.mk "app" [] (some ⟨["cc", "app.c"]⟩))
     (fun p => if p = buildSourcePath then 7 else 3) ⟨["cc", "app.c"]⟩
     (fun p => if p = buildSourcePath then 7 else 3) true [] rfl
     (by simp [Target.output, buildSourcePath])
     (by simp [build_deps, Target.deps])⟩

/-- C3: for a target `t` with a dependency `d` anywhere in its dependency
list, the dependency loop (build.c:232-241) builds `d` first and then
compares `d`'s current output mtime against `t`'s entry-time `mtime`; if the
dependency's post-build mtime is strictly newer, `needs_rebuild` is set and
stays set through the remaining dependencies, so `t` is rebuilt — its command
is executed when it has one — even when `t`'s own output already exists. -/
theorem c3_newer_dependency_forces_rebuild
    (exec : Cmd → FS → Option FS) (t : Target) (fs : FS)
    (pre post : List Target) (d : Target)
    (fs1 fs2 fs3 : FS) (b1 b3 : Bool) (tr1 trd tr3 : List Visit)
    (hsplit : t.deps = pre ++ d :: post)
    (hpre : build_deps exec (fs t.output) pre fs
        ((fs t.output == 0) ||
          (t.cmd.isSome && decide (fs buildSourcePath > fs t.output)))
      = .ok (fs1, b1, tr1))
    (hd : build_target exec d fs1 = .ok (fs2, trd))
    (hnewer : fs2 d.output > fs t.output)
    (hpost : build_deps exec (fs t.output) post fs2 true = .ok (fs3, b3, tr3)) :
    b3 = true ∧
    ∀ c, t.cmd = some c →
      build_target exec t fs =
        match cmdRunFs exec c fs3 with
        | none => .error (.cmdFailed t.output)
        | some fs4 => .ok (fs4, (tr1 ++ (trd ++ tr3)) ++ [⟨t.output, true, true⟩]) := by
  obtain ⟨out, deps, cmd⟩ := t
  simp only [Target.output, Target.deps, Target.cmd] at hsplit hpre hnewer hpost ⊢
  replace hnewer : fs2 d.output > fs out := hnewer
  subst hsplit
  have hb3 : b3 = true :=
    build_deps_true exec (fs out) post fs2 fs3 b3 tr3 hpost
  subst hb3
  refine ⟨rfl, ?_⟩
  intro c hc
  subst hc
  have hfull : build_deps exec (fs out) (pre ++ d :: post) fs
      ((fs out == 0) ||
        ((some c).isSome && decide (fs buildSourcePath > fs out)))
      = .ok (fs3, true, tr1 ++ (trd ++ tr3)) := by
    have hdec : (b1 || decide (fs2 d.output > fs out)) = true := by
      simp only [Bool.or_eq_true, decide_eq_true_eq]
      exact Or.inr hnewer
    rw [build_deps_append, hpre]
    simp only [build_deps, hd]
    rw [hdec, hpost]
  have hu := build_target_unfold exec out (pre ++ d :: post) (some c) fs fs3 true
    (tr1 ++ (trd ++ tr3)) hfull
  rw [hu]
  simp [build_decision]

/-- C3 witness: target `prog` (output mtime 5, command `cc`) with single
dependency `dep` (a source with mtime 7 > 5); the dependency is newer, so
the command runs even though `prog`'s output exists. -/
theorem c3_newer_dependency_witness :
    ((Target.mk "prog" [Target.mk "dep" [] none] (some ⟨["cc"]⟩)).deps
        = [] ++ Target.mk "dep" [] none :: []) ∧
    (build_target (fun _ f => some f) (Target.mk "dep" [] none)
        (fun p => if p = "dep" then 7 else if p = "prog" then 5 else 0)
      = .ok ((fun p => if p = "dep" then 7 else if p = "prog" then 5 else 0 : FS),
             [⟨"dep", false, false⟩])) ∧
    ((fun p => if p = "dep" then 7 else if p = "prog" then 5 else 0 : FS)
        (Target.mk "dep" [] none).output >
      (fun p => if p = "dep" then 7 else if p = "prog" then 5 else 0 : FS)
        (Target.mk "prog" [Target.mk "dep" [] none] (some ⟨["cc"]⟩)).output) ∧
    (∀ c, (Target.mk "prog" [Target.mk "dep" [] none] (some ⟨["cc"]⟩)).cmd = some c →
      build_target (fun _ f => some f)
          (Target.mk "prog" [Target.mk "dep" [] none] (some ⟨["cc"]⟩))
          (fun p => if p = "dep" then 7 else if p = "prog" then 5 else 0)
        = match cmdRunFs (fun _ f => some f) c
              (fun p => if p = "dep" then 7 else if p = "prog" then 5 else 0) with
          | none =>
            .error (.cmdFailed
              (Target.mk "prog" [Target.mk "dep" [] none] (some ⟨["cc"]⟩)).output)
          | some fs4 =>
            .ok (fs4, ([] ++ ([⟨"dep", false, false⟩] ++ [])) ++
              [⟨(Target.mk "prog" [Target.mk "dep" [] none] (some ⟨["cc"]⟩)).output,
                true, true⟩])) := by
  have hdep : build_target (fun _ f => some f) (Target.mk "dep" [] none)
      (fun p => if p = "dep" then 7 else if p = "prog" then 5 else 0)
      = .ok ((fun p => if p = "dep" then 7 else if p = "prog" then 5 else 0 : FS),
             [⟨"dep", false, false⟩]) := by
    simp [build_target, build_deps, build_decision, Target.output, buildSourcePath]
  refine ⟨rfl, hdep, by simp [Target.output], ?_⟩
  exact (c3_newer_dependency_forces_rebuild (fun _ f => some f)
    (Target.mk "prog" [Target.mk "dep" [] none] (some ⟨["cc"]⟩))
    (fun p => if p = "dep" then 7 else if p = "prog" then 5 else 0)
    [] [] (Target.mk "dep" [] none)
    (fun p => if p = "dep" then 7 else if p = "prog" then 5 else 0)
    (fun p => if p = "dep" then 7 else if p = "prog" then 5 else 0)
    (fun p => if p = "dep" then 7 else if p = "prog" then 5 else 0)
    false true [] [⟨"dep", false, false⟩] []
    rfl (by simp [build_deps, Target.deps, Target.output, buildSourcePath]) hdep
    (by simp [Target.output]) (by simp [build_deps])).2

lemma cmdRunFs_id (exec : Cmd → FS → Option FS)
    (hexec : ∀ c f, exec c f = some f) (c : Cmd) (fs : FS) :
    cmdRunFs exec c fs = some fs := by
  unfold cmdRunFs
  split <;> simp [hexec]

lemma node_build (exec : Cmd → FS → Option FS)
    (hexec : ∀ c f, exec c f = some f) (out : String) (cmd : Option Cmd)
    (deps : List Target) (fs : FS) (trs : List Visit) (b : Bool)
    (hdeps : build_deps exec (fs out) deps fs
        ((fs out == 0) || (cmd.isSome && decide (fs buildSourcePath > fs out)))
      = .ok (fs, b, trs))
    (hv : fs out ≠ 0 ∨ cmd ≠ none) :
    ∃ nb rb, build_target exec (.mk out deps cmd) fs
      = .ok (fs, trs ++ [⟨out, nb, rb⟩]) := by
  have hu := build_target_unfold exec out deps cmd fs fs b trs hdeps
  cases hb : b with
  | false =>
    refine ⟨false, false, ?_⟩
    rw [hu, hb]
    simp [build_decision]
  | true =>
    cases cmd with
    | none =>
      refine ⟨true, false, ?_⟩
      rw [hu, hb]
      have h0 : ¬ fs out = 0 := by
        rcases hv with hv | hv
        · exact hv
        · exact absurd rfl hv
      simp [build_decision, h0]
    | some c =>
      refine ⟨true, true, ?_⟩
      rw [hu, hb]
      simp [build_decision, cmdRunFs_id exec hexec c fs]

/-- C9: in a diamond graph (D depends on B and C; B and C each depend on the
same node A), one call `build(D)` reaches A once per traversal path — the
visit trace contains exactly two entries for A's output — and when command
execution leaves the filesystem unchanged (the spec's "unchanged filesystem
state" reading of idempotence), the two visits of A are byte-for-byte the
same record (same rebuild-or-skip decision), the walk succeeds, and the
final filesystem equals the initial one (the net filesystem effect is
idempotent). -/
theorem c9_diamond_dependency_visits_twice_idempotent
    (exec : Cmd → FS → Option FS) (fs : FS)
    (aout bout cout dout : String) (acmd bcmd ccmd dcmd : Option Cmd)
    (hexec : ∀ c f, exec c f = some f)
    (hva : fs aout ≠ 0 ∨ acmd ≠ none) (hvb : fs bout ≠ 0 ∨ bcmd ≠ none)
    (hvc : fs cout ≠ 0 ∨ ccmd ≠ none) (hvd : fs dout ≠ 0 ∨ dcmd ≠ none)
    (hba : bout ≠ aout) (hca : cout ≠ aout) (hda : dout ≠ aout) :
    ∃ (tr : List Visit) (v : Visit),
      build_target exec
        (.mk dout [.mk bout [.mk aout [] acmd] bcmd,
                   .mk cout [.mk aout [] acmd] ccmd] dcmd) fs
        = .ok (fs, tr) ∧
      tr.filter (fun w => w.output == aout) = [v, v] := by
  obtain ⟨na, ra, hA⟩ := node_build exec hexec aout acmd [] fs []
    ((fs aout == 0) || (acmd.isSome && decide (fs buildSourcePath > fs aout)))
    (by simp [build_deps]) hva
  rw [List.nil_append] at hA
  obtain ⟨nb, rb, hB⟩ := node_build exec hexec bout bcmd [.mk aout [] acmd] fs
    [⟨aout, na, ra⟩]
    (((fs bout == 0) || (bcmd.isSome && decide (fs buildSourcePath > fs bout)))
      || decide (fs aout > fs bout))
    (by simp [build_deps, hA, Target.output]) hvb
  obtain ⟨nc, rc, hC⟩ := node_build exec hexec cout ccmd [.mk aout [] acmd] fs
    [⟨aout, na, ra⟩]
    (((fs cout == 0) || (ccmd.isSome && decide (fs buildSourcePath > fs cout)))
      || decide (fs aout > fs cout))
    (by simp [build_deps, hA, Target.output]) hvc
  obtain ⟨nd, rd, hD⟩ := node_build exec hexec dout dcmd
    [.mk bout [.mk aout [] acmd] bcmd, .mk cout [.mk aout [] acmd] ccmd] fs
    ([⟨aout, na, ra⟩, ⟨bout, nb, rb⟩] ++ [⟨aout, na, ra⟩, ⟨cout, nc, rc⟩])
    ((((fs dout == 0) || (dcmd.isSome && decide (fs buildSourcePath > fs dout)))
        || decide (fs bout > fs dout)) || decide (fs cout > fs dout))
    (by simp [build_deps, hB, hC, Target.output]) hvd
  refine ⟨_, ⟨aout, na, ra⟩, hD, ?_⟩
  have hba' : (bout == aout) = false := by simpa using hba
  have hca' : (cout == aout) = false := by simpa using hca
  have hda' : (dout == aout) = false := by simpa using hda
  simp [List.filter, hba', hca', hda']

/-- C9 witness: the concrete diamond `d → \x7bb, c\x7d → a` over source-only
nodes on a filesystem where every path has mtime 1 and commands change
nothing. -/
theorem c9_diamond_dependency_witness :
    (∀ c f, (fun _ f => some f : Cmd → FS → Option FS) c f = some f) ∧
    ((fun _ => 1 : FS) "a" ≠ 0 ∨ (none : Option Cmd) ≠ none) ∧
    ("b" : String) ≠ "a" ∧
    (∃ (tr : List Visit) (v : Visit),
      build_target (fun _ f => some f)
        (.mk "d" [.mk "b" [.mk "a" [] none] none,
                  .mk "c" [.mk "a" [] none] none] none) (fun _ => 1)
        = .ok ((fun _ => 1 : FS), tr) ∧
      tr.filter (fun w => w.output == "a") = [v, v]) :=
  ⟨fun _ _ => rfl, Or.inl (by decide), by decide,
   c9_diamond_dependency_visits_twice_idempotent (fun _ f => some f)
     (fun _ => 1) "a" "b" "c" "d" none none none none
     (fun _ _ => rfl)
     (Or.inl (by decide)) (Or.inl (by decide)) (Or.inl (by decide))
     (Or.inl (by decide))
     (by decide) (by decide) (by decide)⟩
